import Mathlib

/-!
Shallow embedding of the locomotion / collision / ground-tracking core of
the `gravityrail/the-bean` repository.

The embedded code comes from:
  * `src/game/Bean.ts` (the file with unknown name packed as
    `src/unnamed/part_004`; it holds two revisions of the `Bean` class —
    an earlier revision whose `move` clamps x/z to the ±23 room boundary
    and performs no collision resolution, and the current revision whose
    `move` performs ray-probe collision resolution with a step-up branch
    and applies no boundary clamp.  The current revision is the one the
    named file `src/controls/ControlsManager.ts` compiles against: it
    requires `public readonly HEIGHT` and `updatePosition(isVRMode)`,
    which only the second revision provides.)
  * `src/controls/ControlsManager.ts` (`updateDesktopControls`,
    `updateVRControls`, `detectFloorHeight`).

Numeric values are modelled as rationals.  The host environment's
transcendental functions (`Math.sin`, `Math.cos`, `Math.PI`) are
abstracted into a `Ctx` record of function values, and Babylon.js
geometry queries (`scene.pickWithRay`, `scene.multiPickWithRay`,
`Vector3.normalize`) are abstracted into a `SceneModel` record: the
embedded control flow treats them exactly as the source does — as
opaque calls whose results drive the branches.
-/

namespace TheBean

/-- A 3-component vector (Babylon `Vector3`), over ℚ. -/
structure Vec3 where
  x : ℚ
  y : ℚ
  z : ℚ
  deriving DecidableEq, Repr

/-- Abstract numeric environment standing for the host `Math` object:
`sin`, `cos`, and the value `Math.PI / 3` used by the camera pitch clamp. -/
structure Ctx where
  sin : ℚ → ℚ
  cos : ℚ → ℚ
  piThird : ℚ

/-- A probe ray: origin, direction and length, as handed to
`scene.pickWithRay(new Ray(origin, direction, length), filter)`. -/
structure Ray3 where
  origin : Vec3
  direction : Vec3
  length : ℚ
  deriving DecidableEq, Repr

/-- Abstract scene/geometry capability.  `pickMove` answers the
movement-probe `pickWithRay` (with the collision filter of
`checkCollisionWithStepUp`), `pickHead` answers the headroom-probe
`pickWithRay` (with its own filter).  The answer `none` is "no hit"
(`!pickInfo?.hit`); `some none` is a hit whose `pickedMesh` is null;
`some (some top)` is a hit on a mesh whose bounding-box
`maximumWorld.y` is `top`.  `normalize` stands for
`Vector3.normalize()` (which involves a square root and is therefore
kept abstract). -/
structure SceneModel where
  normalize : Vec3 → Vec3
  pickMove : Ray3 → Option (Option ℚ)
  pickHead : Ray3 → Option (Option ℚ)

/-- `CameraView` enum of `Bean.ts`. -/
inductive CameraView where
  | FIRST_PERSON
  | FOLLOW
  deriving DecidableEq, Repr

/-- The mutable fields of the `Bean` class that the locomotion core
touches: `position`, `rotation.y`, the camera's `rotation.x` /
`rotation.y` (written by `rotate` in first-person view), `cameraView`,
`isMoving`, `isRunning`. -/
structure BeanState where
  position : Vec3
  rotationY : ℚ
  cameraRotX : ℚ
  cameraRotY : ℚ
  cameraView : CameraView
  isMoving : Bool
  isRunning : Bool
  deriving DecidableEq, Repr

/-- `private readonly HEIGHT = 0.8` of `Bean`. -/
def HEIGHT : ℚ := 0.8

/-- `const rayLength = 0.4; // Bean's collision radius` in
`checkCollisionWithStepUp`. -/
def RAY_LENGTH : ℚ := 0.4

namespace Bean

/-- The result record of `checkCollisionWithStepUp`:
`{ hit: boolean; canStepUp: boolean; stepHeight?: number }`
(`stepHeight`, when present, holds the obstacle's top height). -/
structure CollisionInfo where
  hit : Bool
  canStepUp : Bool
  stepHeight : Option ℚ
  deriving DecidableEq, Repr

/-- The first movement probe ray of `checkCollisionWithStepUp`: origin at
the actor's (already displaced) position, direction the normalized
movement direction, length the collision radius. -/
def probeRay (scene : SceneModel) (pos moveDir : Vec3) : Ray3 :=
  ⟨pos, scene.normalize moveDir, RAY_LENGTH⟩

/-- The headroom probe ray of `checkCollisionWithStepUp`: origin raised to
`obstacleTop + HEIGHT`, same normalized direction and length. -/
def headroomRay (scene : SceneModel) (pos moveDir : Vec3) (obstacleTop : ℚ) : Ray3 :=
  ⟨⟨pos.x, obstacleTop + HEIGHT, pos.z⟩, scene.normalize moveDir, RAY_LENGTH⟩

/-- `Bean.checkCollisionWithStepUp(moveDirection)` of the current
revision, with `pos` the value of `this.position` at the call site. -/
def checkCollisionWithStepUp (scene : SceneModel) (pos moveDir : Vec3) : CollisionInfo :=
  match scene.pickMove (probeRay scene pos moveDir) with
  | none => ⟨false, false, none⟩
  | some none => ⟨true, false, none⟩
  | some (some obstacleTop) =>
    let currentFloorHeight := pos.y - HEIGHT
    let stepHeight := obstacleTop - currentFloorHeight
    let maxStepHeight := HEIGHT * 2
    if 0 < stepHeight ∧ stepHeight ≤ maxStepHeight then
      if (scene.pickHead (headroomRay scene pos moveDir obstacleTop)).isSome then
        ⟨true, false, none⟩
      else
        ⟨true, true, some obstacleTop⟩
    else
      ⟨true, false, none⟩

/-- The x- and z-components of the candidate displacement computed at the
top of `move` (identical text in both revisions):
`forwardX + strafeX` and `forwardZ + strafeZ` with
`speed = isRunning ? 12 : 6` and `moveSpeed = speed * deltaTime`. -/
def moveDelta (ctx : Ctx) (b : BeanState) (forward strafe deltaTime : ℚ) : ℚ × ℚ :=
  let speed : ℚ := if b.isRunning then 12 else 6
  let moveSpeed := speed * deltaTime
  let forwardX := ctx.sin b.rotationY * forward * moveSpeed
  let forwardZ := ctx.cos b.rotationY * forward * moveSpeed
  let strafeX := ctx.cos b.rotationY * strafe * moveSpeed
  let strafeZ := -ctx.sin b.rotationY * strafe * moveSpeed
  (forwardX + strafeX, forwardZ + strafeZ)

/-- The candidate position after `this.position.x += ...; this.position.z += ...`
in `move` (y untouched). -/
def moveCandidate (ctx : Ctx) (b : BeanState) (forward strafe deltaTime : ℚ) : Vec3 :=
  ⟨b.position.x + (moveDelta ctx b forward strafe deltaTime).1,
   b.position.y,
   b.position.z + (moveDelta ctx b forward strafe deltaTime).2⟩

/-- `const moveDirection = new Vector3(forwardX + strafeX, 0, forwardZ + strafeZ)`. -/
def moveDir (ctx : Ctx) (b : BeanState) (forward strafe deltaTime : ℚ) : Vec3 :=
  ⟨(moveDelta ctx b forward strafe deltaTime).1, 0,
   (moveDelta ctx b forward strafe deltaTime).2⟩

/-- The `collisionInfo` computed inside `move`:
`this.checkCollisionWithStepUp(moveDirection)` at the displaced position. -/
def moveCollisionInfo (ctx : Ctx) (scene : SceneModel) (b : BeanState)
    (forward strafe deltaTime : ℚ) : CollisionInfo :=
  checkCollisionWithStepUp scene (moveCandidate ctx b forward strafe deltaTime)
    (moveDir ctx b forward strafe deltaTime)

/-- `Bean.move(forward, strafe, deltaTime)` of the current (collision)
revision of `Bean.ts`.  On a hit with `canStepUp && stepHeight !== undefined`
the logical y is set to `stepHeight + HEIGHT` immediately (the cosmetic
hop animation also ends at that value); otherwise the whole displacement
is rolled back to `oldPosition`. -/
def move (ctx : Ctx) (scene : SceneModel) (b : BeanState)
    (forward strafe deltaTime : ℚ) : BeanState :=
  if forward ≠ 0 ∨ strafe ≠ 0 then
    let oldPosition := b.position
    let candidate := moveCandidate ctx b forward strafe deltaTime
    let collisionInfo := moveCollisionInfo ctx scene b forward strafe deltaTime
    if collisionInfo.hit then
      match collisionInfo.canStepUp, collisionInfo.stepHeight with
      | true, some stepTop =>
        { b with isMoving := true,
                 position := ⟨candidate.x, stepTop + HEIGHT, candidate.z⟩ }
      | _, _ =>
        { b with isMoving := true, position := oldPosition }
    else
      { b with isMoving := true, position := candidate }
  else
    { b with isMoving := false }

/-- `Bean.move` of the earlier revision in the same packed file: same
displacement, then `position.x = Math.max(-23, Math.min(23, position.x))`
and likewise for z; no collision probe at all. -/
def moveClampVariant (ctx : Ctx) (b : BeanState)
    (forward strafe deltaTime : ℚ) : BeanState :=
  if forward ≠ 0 ∨ strafe ≠ 0 then
    let d := moveDelta ctx b forward strafe deltaTime
    { b with isMoving := true,
             position := ⟨max (-23) (min 23 (b.position.x + d.1)),
                          b.position.y,
                          max (-23) (min 23 (b.position.z + d.2))⟩ }
  else
    { b with isMoving := false }

/-- `Bean.rotate(yaw, pitch)`: `rotation.y += yaw`, and in first-person
view the camera yaw mirrors the actor yaw while the camera pitch is
accumulated and clamped to `±Math.PI/3`. -/
def rotate (ctx : Ctx) (b : BeanState) (yaw pitch : ℚ) : BeanState :=
  let b1 := { b with rotationY := b.rotationY + yaw }
  if b1.cameraView = CameraView.FIRST_PERSON then
    { b1 with cameraRotY := b1.rotationY,
              cameraRotX := max (-ctx.piThird) (min ctx.piThird (b1.cameraRotX + pitch)) }
  else
    b1

/-- `Bean.setRunning(running)`. -/
def setRunning (b : BeanState) (running : Bool) : BeanState :=
  { b with isRunning := running }

end Bean

namespace ControlsManager

/-- `private readonly MOUSE_SENSITIVITY = 0.002`. -/
def MOUSE_SENSITIVITY : ℚ := 0.002

/-- One iteration of the `closestFloor` loop of `detectFloorHeight`:
skip entries without a hit point, and take `hitY` whenever
`hitY <= position.y + 0.5 && hitY > closestFloor` (the accumulator
`none` stands for the `-Infinity` start value, so any qualifying hit
beats it). -/
def closestFloorStep (posY : ℚ) (acc : Option ℚ) (hit : Option ℚ) : Option ℚ :=
  match hit with
  | none => acc
  | some hitY =>
    match acc with
    | none => if hitY ≤ posY + 0.5 then some hitY else none
    | some c => if hitY ≤ posY + 0.5 ∧ c < hitY then some hitY else some c

/-- One iteration of the `lowestY` loop of `detectFloorHeight`: skip
entries without a hit point, and take `hitY` whenever `hitY < lowestY`
(the accumulator `none` stands for the `Infinity` start value). -/
def lowestStep (acc : Option ℚ) (hit : Option ℚ) : Option ℚ :=
  match hit with
  | none => acc
  | some hitY =>
    match acc with
    | none => some hitY
    | some lowestY => if hitY < lowestY then some hitY else acc

/-- `ControlsManager.detectFloorHeight(position)`.  The multi-pick result
is modelled as a list of entries, each `some hitY` (a picked point with
height `hitY`) or `none` (an entry with `hit` false or no `pickedPoint`,
which both loops skip).  Returns the pair
(returned floor height, `lastKnownFloorHeight` after the call):
the field is updated exactly on the two `return` paths that found a
height, and kept when the probe produced nothing usable. -/
def detectFloorHeight (hits : List (Option ℚ)) (posY lastKnown : ℚ) : ℚ × ℚ :=
  if 0 < hits.length then
    match hits.foldl (closestFloorStep posY) none with
    | some closestFloor => (closestFloor, closestFloor)
    | none =>
      match hits.foldl lowestStep none with
      | some lowestY => (lowestY, lowestY)
      | none => (lastKnown, lastKnown)
  else
    (lastKnown, lastKnown)

/-- The heights of the entries of a multi-pick result that carry a hit
point (the entries both loops of `detectFloorHeight` consider). -/
def validHits (hits : List (Option ℚ)) : List ℚ :=
  hits.filterMap id

/-- The valid hits at height at most `position.y + 0.5` — the candidates
of the `closestFloor` loop. -/
def qualifyingHits (hits : List (Option ℚ)) (posY : ℚ) : List ℚ :=
  (validHits hits).filter (fun hitY => decide (hitY ≤ posY + 0.5))

/-- The `forward`/`strafe` axis pair computed at the top of
`updateDesktopControls` by sequential reassignment:
W/↑ sets forward 1, then S/↓ sets forward −1; Z sets strafe −1, then X
sets 1, then A sets −1, then D sets 1. -/
def desktopAxes (keys : String → Bool) : ℚ × ℚ :=
  let forward : ℚ := 0
  let forward := if keys "w" || keys "arrowup" then 1 else forward
  let forward := if keys "s" || keys "arrowdown" then -1 else forward
  let strafe : ℚ := 0
  let strafe := if keys "z" then -1 else strafe
  let strafe := if keys "x" then 1 else strafe
  let strafe := if keys "a" then -1 else strafe
  let strafe := if keys "d" then 1 else strafe
  (forward, strafe)

/-- `rotateSpeed` computed by `updateDesktopControls` from the left/right
arrow keys, again by sequential reassignment. -/
def arrowRotateSpeed (keys : String → Bool) : ℚ :=
  let rotateSpeed : ℚ := 0
  let rotateSpeed := if keys "arrowleft" then -2 else rotateSpeed
  let rotateSpeed := if keys "arrowright" then 2 else rotateSpeed
  rotateSpeed

/-- The state of `ControlsManager` that `updateDesktopControls` touches:
the pressed-key map, the pointer-delta accumulator `mouseMovement`,
`isPointerLocked`, and the owned `Bean`. -/
structure ControlsState where
  keys : String → Bool
  mouseMovement : ℚ × ℚ
  isPointerLocked : Bool
  bean : BeanState

/-- The bean after the key-driven part of `updateDesktopControls`:
`setRunning(keys.get('shift') || false)`, then
`move(forward, strafe, deltaTime)`, then — only when `rotateSpeed ≠ 0` —
`rotate(rotateSpeed * deltaTime, 0)`. -/
def desktopBeanAfterKeys (ctx : Ctx) (scene : SceneModel) (st : ControlsState)
    (deltaTime : ℚ) : BeanState :=
  let axes := desktopAxes st.keys
  let rotateSpeed := arrowRotateSpeed st.keys
  let bean := Bean.setRunning st.bean (st.keys "shift")
  let bean := Bean.move ctx scene bean axes.1 axes.2 deltaTime
  if rotateSpeed ≠ 0 then Bean.rotate ctx bean (rotateSpeed * deltaTime) 0 else bean

/-- `ControlsManager.updateDesktopControls(deltaTime)`.  Returns the
state unchanged when the pointer is not locked (`if (!this.isPointerLocked)
return;`); otherwise runs the key-driven part and then, when the
`mouseMovement` accumulator is nonzero, applies it once through
`bean.rotate` scaled by `MOUSE_SENSITIVITY` and resets the accumulator
to zero. -/
def updateDesktopControls (ctx : Ctx) (scene : SceneModel) (st : ControlsState)
    (deltaTime : ℚ) : ControlsState :=
  if st.isPointerLocked = false then
    st
  else
    let bean := desktopBeanAfterKeys ctx scene st deltaTime
    if st.mouseMovement.1 ≠ 0 ∨ st.mouseMovement.2 ≠ 0 then
      let yaw := st.mouseMovement.1 * MOUSE_SENSITIVITY
      let pitch := -st.mouseMovement.2 * MOUSE_SENSITIVITY
      { st with bean := Bean.rotate ctx bean yaw pitch, mouseMovement := (0, 0) }
    else
      { st with bean := bean }

/-- The per-frame inputs of `updateVRControls` that come from the XR
camera and the scene: the camera's world position, the multi-pick
response of this frame's downward floor probe, and the head yaw
`atan2(horizontalForward.x, horizontalForward.z)` when the horizontal
forward vector is long enough (`none` when `horizontalForward.length()
<= 0.01`, in which case the rotation update is skipped). -/
structure VRFrameInput where
  cameraWorldPos : Vec3
  floorHits : List (Option ℚ)
  headYaw : Option ℚ

/-- The state `updateVRControls` touches: the owned `Bean`,
`lastKnownFloorHeight`, and the XR camera's local vertical offset
(`xrCamera.position.y`, adjusted by the drift-correction branch). -/
structure VRState where
  bean : BeanState
  lastKnownFloorHeight : ℚ
  xrCameraLocalY : ℚ

/-- `ControlsManager.updateVRControls(deltaTime)` (the branch where the
XR helper and camera exist): bean x/z copied from the camera world
position, bean y pinned to `detectFloorHeight(...) + HEIGHT`, the camera
height corrected when `|heightError| > 0.01`, and bean yaw overwritten
from the head direction when available.  (`bean.updatePosition(true)` at
the end only mirrors `position` into the render transform and is not
part of the logical state.) -/
def updateVRControls (st : VRState) (input : VRFrameInput) : VRState :=
  let bean := { st.bean with
    position := ⟨input.cameraWorldPos.x, st.bean.position.y, input.cameraWorldPos.z⟩ }
  let fh := detectFloorHeight input.floorHits bean.position.y st.lastKnownFloorHeight
  let floorHeight := fh.1
  let bean := { bean with
    position := ⟨bean.position.x, floorHeight + HEIGHT, bean.position.z⟩ }
  let desiredCameraHeight := floorHeight + 1.6
  let heightError := input.cameraWorldPos.y - desiredCameraHeight
  let xrCameraLocalY :=
    if 0.01 < |heightError| then st.xrCameraLocalY - heightError else st.xrCameraLocalY
  let bean :=
    match input.headYaw with
    | some headYaw => { bean with rotationY := headYaw }
    | none => bean
  ⟨bean, fh.2, xrCameraLocalY⟩

end ControlsManager

/-! Concrete fixtures used to instantiate the theorems below on explicit
inputs.  `ctx0` fixes `sin` and `cos` to the constant functions with
`sin 0 = 0` and `cos 0 = 1`, so at yaw 0 it agrees pointwise with the
host's `Math.sin` / `Math.cos` on every value the fixtures evaluate. -/

/-- Numeric environment whose `sin`/`cos` agree with the host functions
at yaw 0 (the only yaw the fixtures use). -/
def ctx0 : Ctx := ⟨fun _ => 0, fun _ => 1, 1⟩

/-- A scene in which every probe misses (empty room). -/
def emptyScene : SceneModel := ⟨id, fun _ => none, fun _ => none⟩

/-- A scene in which the movement probe hits but Babylon reports no
picked mesh (`pickInfo.hit` true, `pickedMesh` null): step-up ineligible. -/
def nullMeshScene : SceneModel := ⟨id, fun _ => some none, fun _ => none⟩

/-- A scene with an obstacle of top height 1.0 ahead and clear headroom
(the setting of spec Scenario B). -/
def stepScene : SceneModel := ⟨id, fun _ => some (some 1), fun _ => none⟩

/-- The bean as constructed: position `(0, HEIGHT, 0)`, yaw 0,
first-person view, not moving, not running. -/
def bean0 : BeanState :=
  ⟨⟨0, HEIGHT, 0⟩, 0, 0, 0, CameraView.FIRST_PERSON, false, false⟩

/-- With both axes zero, `move` only clears `isMoving`; the scene is
never consulted. -/
lemma move_zero_axes (ctx : Ctx) (scene : SceneModel) (b : BeanState) (deltaTime : ℚ) :
    Bean.move ctx scene b 0 0 deltaTime = { b with isMoving := false } := by
  unfold Bean.move
  rw [if_neg]
  push_neg
  exact ⟨rfl, rfl⟩

/-- Claim C1, counterexample: in the current (collision-resolving)
`Bean.move` there is no boundary clamp.  From the spawn position with
yaw 0 (where `sin = 0`, `cos = 1`), walking forward for `dt = 5` in an
empty scene produces candidate z = 30, and the final z is 30, not 23. -/
theorem move_no_boundary_clamp_cex :
    (Bean.move ctx0 emptyScene bean0 1 0 5).position.z = 30
    ∧ (Bean.move ctx0 emptyScene bean0 1 0 5).position.z ≠ 23 := by
  constructor <;>
    norm_num [Bean.move, Bean.moveCandidate, Bean.moveDelta, Bean.moveCollisionInfo,
      Bean.checkCollisionWithStepUp, Bean.probeRay, ctx0, emptyScene, bean0, HEIGHT,
      RAY_LENGTH]

/-- Claim C1, amended: only the earlier clamp revision of `Bean.move`
hard-clamps: on every call with a nonzero axis it sets each horizontal
coordinate to `max (-23) (min 23 candidate)`, so both final coordinates
lie in [-23, 23]; the collision revision applies no clamp at all. -/
theorem moveClampVariant_bounds (ctx : Ctx) (b : BeanState) (forward strafe deltaTime : ℚ)
    (hmoving : forward ≠ 0 ∨ strafe ≠ 0) :
    (Bean.moveClampVariant ctx b forward strafe deltaTime).position.x
      = max (-23) (min 23 (b.position.x + (Bean.moveDelta ctx b forward strafe deltaTime).1))
    ∧ (Bean.moveClampVariant ctx b forward strafe deltaTime).position.z
      = max (-23) (min 23 (b.position.z + (Bean.moveDelta ctx b forward strafe deltaTime).2))
    ∧ -23 ≤ (Bean.moveClampVariant ctx b forward strafe deltaTime).position.x
    ∧ (Bean.moveClampVariant ctx b forward strafe deltaTime).position.x ≤ 23
    ∧ -23 ≤ (Bean.moveClampVariant ctx b forward strafe deltaTime).position.z
    ∧ (Bean.moveClampVariant ctx b forward strafe deltaTime).position.z ≤ 23 := by
  unfold Bean.moveClampVariant
  rw [if_pos hmoving]
  refine ⟨rfl, rfl, le_max_left _ _, ?_, le_max_left _ _, ?_⟩ <;>
    exact max_le (by norm_num) (min_le_left _ _)

/-- Claim C1, amended, witness: spec Scenario C on the clamp revision —
candidate z = 30 is clamped to 23. -/
theorem moveClampVariant_bounds_witness :
    ((1 : ℚ) ≠ 0 ∨ (0 : ℚ) ≠ 0)
    ∧ (Bean.moveClampVariant ctx0 bean0 1 0 5).position.z = 23 := by
  refine ⟨Or.inl (by norm_num), ?_⟩
  have h := (moveClampVariant_bounds ctx0 bean0 1 0 5 (Or.inl (by norm_num))).2.1
  rw [h]
  norm_num [Bean.moveDelta, ctx0, bean0]

/-- Claim C2: whenever the movement probe hits and the step-up is not
taken, `move` restores `oldPosition` exactly — the position after the
call equals the position before it on every component. -/
theorem move_rollback_exact (ctx : Ctx) (scene : SceneModel) (b : BeanState)
    (forward strafe deltaTime : ℚ)
    (hmoving : forward ≠ 0 ∨ strafe ≠ 0)
    (hhit : (Bean.moveCollisionInfo ctx scene b forward strafe deltaTime).hit = true)
    (hstep : (Bean.moveCollisionInfo ctx scene b forward strafe deltaTime).canStepUp = false) :
    (Bean.move ctx scene b forward strafe deltaTime).position = b.position := by
  unfold Bean.move
  rw [if_pos hmoving]
  simp only [hhit, if_true]
  rw [hstep]

/-- Claim C2, witness: a scene whose probe reports a hit with a null
picked mesh (step-up ineligible); the move is fully rolled back. -/
theorem move_rollback_exact_witness :
    ((1 : ℚ) ≠ 0 ∨ (0 : ℚ) ≠ 0)
    ∧ (Bean.moveCollisionInfo ctx0 nullMeshScene bean0 1 0 1).hit = true
    ∧ (Bean.moveCollisionInfo ctx0 nullMeshScene bean0 1 0 1).canStepUp = false
    ∧ (Bean.move ctx0 nullMeshScene bean0 1 0 1).position = bean0.position := by
  refine ⟨Or.inl (by norm_num), ?_, ?_, ?_⟩
  · norm_num [Bean.moveCollisionInfo, Bean.checkCollisionWithStepUp, nullMeshScene]
  · norm_num [Bean.moveCollisionInfo, Bean.checkCollisionWithStepUp, nullMeshScene]
  · exact move_rollback_exact ctx0 nullMeshScene bean0 1 0 1 (Or.inl (by norm_num))
      (by norm_num [Bean.moveCollisionInfo, Bean.checkCollisionWithStepUp, nullMeshScene])
      (by norm_num [Bean.moveCollisionInfo, Bean.checkCollisionWithStepUp, nullMeshScene])

/-- Claim C4: with at least one nonzero axis and no hit, the applied
displacement is exactly `forward_vec + strafe_vec` with
`forward_vec = (sin yaw, 0, cos yaw) · forward · speed · dt`,
`strafe_vec = (cos yaw, 0, -sin yaw) · strafe · speed · dt` and
`speed = 6 · (2 if running else 1)`; y is unchanged. -/
theorem move_displacement_formula (ctx : Ctx) (scene : SceneModel) (b : BeanState)
    (forward strafe deltaTime : ℚ)
    (hmoving : forward ≠ 0 ∨ strafe ≠ 0)
    (hnohit : (Bean.moveCollisionInfo ctx scene b forward strafe deltaTime).hit = false) :
    (Bean.move ctx scene b forward strafe deltaTime).position =
      ⟨b.position.x
         + (ctx.sin b.rotationY * forward * ((6 * if b.isRunning then 2 else 1) * deltaTime)
            + ctx.cos b.rotationY * strafe * ((6 * if b.isRunning then 2 else 1) * deltaTime)),
       b.position.y,
       b.position.z
         + (ctx.cos b.rotationY * forward * ((6 * if b.isRunning then 2 else 1) * deltaTime)
            + -ctx.sin b.rotationY * strafe * ((6 * if b.isRunning then 2 else 1) * deltaTime))⟩ := by
  unfold Bean.move
  rw [if_pos hmoving]
  simp only [hnohit, Bool.false_eq_true, if_false]
  unfold Bean.moveCandidate Bean.moveDelta
  cases b.isRunning <;>
    (simp only [Vec3.mk.injEq, if_true, if_false, Bool.false_eq_true];
      refine ⟨by ring, trivial, by ring⟩)

/-- Claim C4, witness: spec Scenario A — actor at (0, 0.8, 0), yaw 0,
forward 1, dt 1, walking, empty scene ⇒ resulting position (0, 0.8, 6). -/
theorem move_displacement_formula_witness :
    ((1 : ℚ) ≠ 0 ∨ (0 : ℚ) ≠ 0)
    ∧ (Bean.moveCollisionInfo ctx0 emptyScene bean0 1 0 1).hit = false
    ∧ (Bean.move ctx0 emptyScene bean0 1 0 1).position = ⟨0, 0.8, 6⟩ := by
  refine ⟨Or.inl (by norm_num), by norm_num [Bean.moveCollisionInfo,
    Bean.checkCollisionWithStepUp, emptyScene], ?_⟩
  have h := move_displacement_formula ctx0 emptyScene bean0 1 0 1 (Or.inl (by norm_num))
    (by norm_num [Bean.moveCollisionInfo, Bean.checkCollisionWithStepUp, emptyScene])
  rw [h]
  norm_num [ctx0, bean0, HEIGHT]

/-- Claim C8: any number of `move` calls with both axes zero leaves the
position exactly unchanged, clears `isMoving` (once at least one call
ran), and never consults the scene (the result is the same for every
scene, i.e. no collision probe runs). -/
theorem move_noop_idempotent (ctx : Ctx) (scene scene' : SceneModel) (b : BeanState)
    (deltaTime : ℚ) (n : ℕ) :
    ((fun st => Bean.move ctx scene st 0 0 deltaTime)^[n] b).position = b.position
    ∧ (0 < n → ((fun st => Bean.move ctx scene st 0 0 deltaTime)^[n] b).isMoving = false)
    ∧ Bean.move ctx scene b 0 0 deltaTime = Bean.move ctx scene' b 0 0 deltaTime := by
  refine ⟨?_, ?_, by rw [move_zero_axes, move_zero_axes]⟩
  · induction n with
    | zero => rfl
    | succ k ih =>
      rw [Function.iterate_succ_apply', move_zero_axes]
      exact ih
  · intro hn
    obtain ⟨k, rfl⟩ : ∃ k, n = k + 1 := ⟨n - 1, (Nat.succ_pred_eq_of_pos hn).symm⟩
    rw [Function.iterate_succ_apply', move_zero_axes]

/-- Claim C8, witness: two no-op frames from the spawn state. -/
theorem move_noop_idempotent_witness :
    ((fun st => Bean.move ctx0 emptyScene st 0 0 1)^[2] bean0).position = bean0.position
    ∧ ((fun st => Bean.move ctx0 emptyScene st 0 0 1)^[2] bean0).isMoving = false := by
  exact ⟨(move_noop_idempotent ctx0 emptyScene emptyScene bean0 1 2).1,
    (move_noop_idempotent ctx0 emptyScene emptyScene bean0 1 2).2.1 (by norm_num)⟩

/-- Claim C7: after `updateVRControls`, the bean's y equals the floor
height selected (or held over) by this frame's probe plus the actor
height, and the persisted floor state is exactly the probe's update. -/
theorem vr_actor_y_pinned (st : ControlsManager.VRState) (input : ControlsManager.VRFrameInput) :
    (ControlsManager.updateVRControls st input).bean.position.y
      = (ControlsManager.detectFloorHeight input.floorHits st.bean.position.y
          st.lastKnownFloorHeight).1 + HEIGHT
    ∧ (ControlsManager.updateVRControls st input).lastKnownFloorHeight
      = (ControlsManager.detectFloorHeight input.floorHits st.bean.position.y
          st.lastKnownFloorHeight).2 := by
  unfold ControlsManager.updateVRControls
  obtain ⟨pos, hits, hy⟩ := input
  cases hy <;> simp

/-- Claim C3: given the movement probe hit a mesh with top height `top`,
the step-up is taken iff `0 < stepHeight ≤ 2·HEIGHT` (with
`stepHeight = top − (actorY − HEIGHT)`, bounds closed at the top) and
the headroom probe from `top + HEIGHT` along the same direction misses;
on eligibility the logical y is set to `top + HEIGHT` and the horizontal
candidate is kept unchanged. -/
theorem step_up_eligibility (ctx : Ctx) (scene : SceneModel) (b : BeanState)
    (forward strafe deltaTime top : ℚ)
    (hmoving : forward ≠ 0 ∨ strafe ≠ 0)
    (hpick : scene.pickMove (Bean.probeRay scene (Bean.moveCandidate ctx b forward strafe deltaTime)
        (Bean.moveDir ctx b forward strafe deltaTime)) = some (some top)) :
    ((Bean.moveCollisionInfo ctx scene b forward strafe deltaTime).canStepUp = true ↔
      (0 < top - ((Bean.moveCandidate ctx b forward strafe deltaTime).y - HEIGHT)
       ∧ top - ((Bean.moveCandidate ctx b forward strafe deltaTime).y - HEIGHT) ≤ 2 * HEIGHT
       ∧ scene.pickHead (Bean.headroomRay scene (Bean.moveCandidate ctx b forward strafe deltaTime)
            (Bean.moveDir ctx b forward strafe deltaTime) top) = none))
    ∧ ((Bean.moveCollisionInfo ctx scene b forward strafe deltaTime).canStepUp = true →
        (Bean.move ctx scene b forward strafe deltaTime).position =
          ⟨(Bean.moveCandidate ctx b forward strafe deltaTime).x, top + HEIGHT,
           (Bean.moveCandidate ctx b forward strafe deltaTime).z⟩) := by
  have hci : Bean.moveCollisionInfo ctx scene b forward strafe deltaTime =
      (if 0 < top - ((Bean.moveCandidate ctx b forward strafe deltaTime).y - HEIGHT)
          ∧ top - ((Bean.moveCandidate ctx b forward strafe deltaTime).y - HEIGHT) ≤ HEIGHT * 2 then
        if (scene.pickHead (Bean.headroomRay scene (Bean.moveCandidate ctx b forward strafe deltaTime)
              (Bean.moveDir ctx b forward strafe deltaTime) top)).isSome then
          ⟨true, false, none⟩
        else
          ⟨true, true, some top⟩
      else
        ⟨true, false, none⟩ : Bean.CollisionInfo) := by
    unfold Bean.moveCollisionInfo Bean.checkCollisionWithStepUp
    rw [hpick]
  rw [show (2 * HEIGHT : ℚ) = HEIGHT * 2 from mul_comm 2 HEIGHT]
  by_cases h1 : 0 < top - ((Bean.moveCandidate ctx b forward strafe deltaTime).y - HEIGHT)
      ∧ top - ((Bean.moveCandidate ctx b forward strafe deltaTime).y - HEIGHT) ≤ HEIGHT * 2
  · rw [if_pos h1] at hci
    by_cases h2 : scene.pickHead (Bean.headroomRay scene (Bean.moveCandidate ctx b forward strafe deltaTime)
        (Bean.moveDir ctx b forward strafe deltaTime) top) = none
    · rw [h2] at hci
      simp only [Option.isSome_none, if_false, Bool.false_eq_true] at hci
      constructor
      · simp [hci, h1, h2]
      · intro _
        unfold Bean.move
        rw [if_pos hmoving]
        simp [hci]
    · obtain ⟨v, hv⟩ := Option.ne_none_iff_exists'.mp h2
      rw [hv] at hci
      simp only [Option.isSome_some, if_true] at hci
      constructor
      · simp [hci, hv]
      · intro hcs
        rw [hci] at hcs
        simp at hcs
  · rw [if_neg h1] at hci
    constructor
    · simp only [hci]
      simp only [iff_def]
      constructor
      · intro hfalse
        simp at hfalse
      · intro hrhs
        exact absurd ⟨hrhs.1, hrhs.2.1⟩ h1
    · intro hcs
      rw [hci] at hcs
      simp at hcs

/-- Claim C3, witness: spec Scenario B — obstacle top 1.0 ahead,
headroom clear, actor height 0.8 ⇒ step-up eligible and the resulting
position is (0, 1.8, 6). -/
theorem step_up_eligibility_witness :
    ((1 : ℚ) ≠ 0 ∨ (0 : ℚ) ≠ 0)
    ∧ stepScene.pickMove (Bean.probeRay stepScene (Bean.moveCandidate ctx0 bean0 1 0 1)
        (Bean.moveDir ctx0 bean0 1 0 1)) = some (some 1)
    ∧ (Bean.moveCollisionInfo ctx0 stepScene bean0 1 0 1).canStepUp = true
    ∧ (Bean.move ctx0 stepScene bean0 1 0 1).position = ⟨0, 1.8, 6⟩ := by
  have h := step_up_eligibility ctx0 stepScene bean0 1 0 1 1 (Or.inl (by norm_num)) rfl
  have helig : (Bean.moveCollisionInfo ctx0 stepScene bean0 1 0 1).canStepUp = true := by
    rw [h.1]
    refine ⟨?_, ?_, rfl⟩ <;> norm_num [Bean.moveCandidate, Bean.moveDelta, ctx0, bean0, HEIGHT]
  refine ⟨Or.inl (by norm_num), rfl, helig, ?_⟩
  rw [h.2 helig]
  norm_num [Bean.moveCandidate, Bean.moveDelta, ctx0, bean0, HEIGHT]

/-- The keyboard map with no key pressed. -/
def noKeys : String → Bool := fun _ => false

/-- Desktop controls state with pointer lock lost while the accumulator
still holds the delta (1, 2). -/
def stUnlocked : ControlsManager.ControlsState := ⟨noKeys, (1, 2), false, bean0⟩

/-- Desktop controls state with pointer locked and pending delta (1, 2). -/
def stLocked : ControlsManager.ControlsState := ⟨noKeys, (1, 2), true, bean0⟩

/-- W, S, X and A held simultaneously (the conflicting-binding example). -/
def conflictKeys : String → Bool := fun k => k == "w" || k == "s" || k == "x" || k == "a"

/-- `move` never writes `rotation.y`. -/
lemma move_keeps_rotationY (ctx : Ctx) (scene : SceneModel) (b : BeanState)
    (forward strafe deltaTime : ℚ) :
    (Bean.move ctx scene b forward strafe deltaTime).rotationY = b.rotationY := by
  unfold Bean.move
  dsimp only
  split
  · split
    · split <;> rfl
    · rfl
  · rfl

/-- `rotate` adds its yaw argument to `rotation.y` in both camera views. -/
lemma rotate_rotationY (ctx : Ctx) (b : BeanState) (yaw pitch : ℚ) :
    (Bean.rotate ctx b yaw pitch).rotationY = b.rotationY + yaw := by
  unfold Bean.rotate
  dsimp only
  split <;> rfl

/-- Claim C9, counterexample: `updateDesktopControls` returns before
touching the accumulator whenever the pointer is not locked, so a call
made with pending delta (1, 2) and pointer lock lost leaves the
accumulator at (1, 2), not zero. -/
theorem pointer_delta_not_consumed_cex :
    (ControlsManager.updateDesktopControls ctx0 emptyScene stUnlocked 1).mouseMovement = (1, 2)
    ∧ ((1 : ℚ), (2 : ℚ)) ≠ ((0 : ℚ), (0 : ℚ)) := by
  constructor
  · rfl
  · simp

/-- Claim C9, amended: on every `updateDesktopControls` call made while
the pointer is locked and the accumulator nonzero, the delta is applied
exactly once through `rotate`, scaled by `MOUSE_SENSITIVITY` (yaw
`+mx · s`, pitch `−my · s`), and the accumulator is exactly (0, 0)
afterwards; with no arrow key held the resulting yaw is the pre-call yaw
plus `mx · MOUSE_SENSITIVITY`. -/
theorem pointer_delta_consume_once (ctx : Ctx) (scene : SceneModel)
    (st : ControlsManager.ControlsState) (deltaTime : ℚ)
    (hlock : st.isPointerLocked = true)
    (hmm : st.mouseMovement.1 ≠ 0 ∨ st.mouseMovement.2 ≠ 0) :
    (ControlsManager.updateDesktopControls ctx scene st deltaTime).mouseMovement = (0, 0)
    ∧ (ControlsManager.updateDesktopControls ctx scene st deltaTime).bean =
        Bean.rotate ctx (ControlsManager.desktopBeanAfterKeys ctx scene st deltaTime)
          (st.mouseMovement.1 * ControlsManager.MOUSE_SENSITIVITY)
          (-st.mouseMovement.2 * ControlsManager.MOUSE_SENSITIVITY)
    ∧ (st.keys "arrowleft" = false → st.keys "arrowright" = false →
        (ControlsManager.updateDesktopControls ctx scene st deltaTime).bean.rotationY
          = st.bean.rotationY + st.mouseMovement.1 * ControlsManager.MOUSE_SENSITIVITY) := by
  have hupd : ControlsManager.updateDesktopControls ctx scene st deltaTime =
      { st with
        bean := (Bean.rotate ctx (ControlsManager.desktopBeanAfterKeys ctx scene st deltaTime)
          (st.mouseMovement.1 * ControlsManager.MOUSE_SENSITIVITY)
          (-st.mouseMovement.2 * ControlsManager.MOUSE_SENSITIVITY)),
        mouseMovement := ((0 : ℚ), (0 : ℚ)) } := by
    unfold ControlsManager.updateDesktopControls
    rw [hlock]
    simp only [Bool.true_eq_false, if_false]
    rw [if_pos hmm]
  refine ⟨by rw [hupd], by rw [hupd], ?_⟩
  intro hal har
  rw [hupd]
  show (Bean.rotate ctx (ControlsManager.desktopBeanAfterKeys ctx scene st deltaTime)
      (st.mouseMovement.1 * ControlsManager.MOUSE_SENSITIVITY)
      (-st.mouseMovement.2 * ControlsManager.MOUSE_SENSITIVITY)).rotationY
    = st.bean.rotationY + st.mouseMovement.1 * ControlsManager.MOUSE_SENSITIVITY
  rw [rotate_rotationY]
  have hrs : ControlsManager.arrowRotateSpeed st.keys = 0 := by
    unfold ControlsManager.arrowRotateSpeed
    rw [hal, har]
    simp
  have hbk : (ControlsManager.desktopBeanAfterKeys ctx scene st deltaTime).rotationY
      = st.bean.rotationY := by
    unfold ControlsManager.desktopBeanAfterKeys
    rw [hrs]
    simp only [ne_eq, not_true_eq_false, if_false]
    rw [move_keeps_rotationY]
    rfl
  rw [hbk]

/-- Claim C9, amended, witness: pointer locked, pending delta (1, 2) —
after one call the accumulator is zero and yaw advanced by
`1 · MOUSE_SENSITIVITY`. -/
theorem pointer_delta_consume_once_witness :
    stLocked.isPointerLocked = true
    ∧ (stLocked.mouseMovement.1 ≠ 0 ∨ stLocked.mouseMovement.2 ≠ 0)
    ∧ (ControlsManager.updateDesktopControls ctx0 emptyScene stLocked 1).mouseMovement = (0, 0)
    ∧ (ControlsManager.updateDesktopControls ctx0 emptyScene stLocked 1).bean.rotationY
        = stLocked.bean.rotationY + stLocked.mouseMovement.1 * ControlsManager.MOUSE_SENSITIVITY := by
  have h := pointer_delta_consume_once ctx0 emptyScene stLocked 1 rfl
    (Or.inl (by norm_num [stLocked]))
  exact ⟨rfl, Or.inl (by norm_num [stLocked]), h.1, h.2.2 rfl rfl⟩

/-- Claim C10: the sequential key evaluation of `updateDesktopControls`
makes the later binding win every conflict — S/↓ forces forward = −1
over W/↑, D forces strafe = 1 over everything, A (without D) forces
strafe = −1 over Z/X — and both axes only ever take values in
{−1, 0, 1}. -/
theorem desktop_axes_precedence (keys : String → Bool) :
    ((ControlsManager.desktopAxes keys).1 = -1 ∨ (ControlsManager.desktopAxes keys).1 = 0
      ∨ (ControlsManager.desktopAxes keys).1 = 1)
    ∧ ((ControlsManager.desktopAxes keys).2 = -1 ∨ (ControlsManager.desktopAxes keys).2 = 0
      ∨ (ControlsManager.desktopAxes keys).2 = 1)
    ∧ (keys "s" = true ∨ keys "arrowdown" = true → (ControlsManager.desktopAxes keys).1 = -1)
    ∧ (keys "d" = true → (ControlsManager.desktopAxes keys).2 = 1)
    ∧ (keys "a" = true → keys "d" = false → (ControlsManager.desktopAxes keys).2 = -1) := by
  unfold ControlsManager.desktopAxes
  refine ⟨?_, ?_, ?_, ?_, ?_⟩
  · split_ifs <;> norm_num
  · split_ifs <;> norm_num
  · intro h
    have hsd : (keys "s" || keys "arrowdown") = true := by
      rcases h with h | h <;> simp [h]
    simp [hsd]
  · intro h
    simp [h]
  · intro ha hd
    simp [ha, hd]

/-- Claim C10, witness: W, S, X, A held together — forward resolves to
−1 (S wins over W) and strafe to −1 (A wins over X). -/
theorem desktop_axes_precedence_witness :
    (conflictKeys "s" = true ∨ conflictKeys "arrowdown" = true)
    ∧ conflictKeys "a" = true
    ∧ conflictKeys "d" = false
    ∧ (ControlsManager.desktopAxes conflictKeys).1 = -1
    ∧ (ControlsManager.desktopAxes conflictKeys).2 = -1 := by
  refine ⟨Or.inl rfl, rfl, rfl, ?_, ?_⟩
  · exact (desktop_axes_precedence conflictKeys).2.2.1 (Or.inl rfl)
  · exact (desktop_axes_precedence conflictKeys).2.2.2.2 rfl rfl

namespace ControlsManager

/-- One `closestFloor` step from a `some` accumulator never loses the
accumulator and never decreases it. -/
lemma closestFloorStep_some (posY c : ℚ) (hd : Option ℚ) :
    ∃ c', closestFloorStep posY (some c) hd = some c' ∧ c ≤ c' := by
  cases hd with
  | none => exact ⟨c, rfl, le_refl c⟩
  | some y =>
    by_cases h : y ≤ posY + 0.5 ∧ c < y
    · exact ⟨y, by simp only [closestFloorStep]; rw [if_pos h], le_of_lt h.2⟩
    · exact ⟨c, by simp only [closestFloorStep]; rw [if_neg h], le_refl c⟩

/-- Folding the `closestFloor` loop from a `some` accumulator stays
`some` and never decreases. -/
lemma closestFloor_foldl_some_exists (posY : ℚ) (l : List (Option ℚ)) :
    ∀ c : ℚ, ∃ m, l.foldl (closestFloorStep posY) (some c) = some m ∧ c ≤ m := by
  induction l with
  | nil => exact fun c => ⟨c, rfl, le_refl c⟩
  | cons hd t ih =>
    intro c
    obtain ⟨c', hc', hle⟩ := closestFloorStep_some posY c hd
    obtain ⟨m, hm, hle'⟩ := ih c'
    exact ⟨m, by rw [List.foldl_cons, hc']; exact hm, le_trans hle hle'⟩

/-- The `closestFloor` loop ends at `-Infinity` (modelled `none`) exactly
when it started there and no valid hit qualifies. -/
lemma closestFloor_foldl_none (posY : ℚ) (l : List (Option ℚ)) :
    ∀ acc : Option ℚ, l.foldl (closestFloorStep posY) acc = none →
      acc = none ∧ ∀ y ∈ l.filterMap id, ¬ y ≤ posY + 0.5 := by
  induction l with
  | nil =>
    intro acc h
    exact ⟨h, by simp⟩
  | cons hd t ih =>
    intro acc h
    rw [List.foldl_cons] at h
    obtain ⟨hstep, htail⟩ := ih (closestFloorStep posY acc hd) h
    match acc with
    | some c =>
      obtain ⟨c', hc', _⟩ := closestFloorStep_some posY c hd
      rw [hc'] at hstep
      exact absurd hstep (by simp)
    | none =>
      refine ⟨rfl, ?_⟩
      intro y hy
      match hd with
      | none =>
        simp only [List.filterMap_cons, id] at hy
        exact htail y hy
      | some z =>
        simp only [List.filterMap_cons, id, List.mem_cons] at hy
        rcases hy with rfl | hy
        · intro hQ
          simp only [closestFloorStep] at hstep
          rw [if_pos hQ] at hstep
          exact absurd hstep (by simp)
        · exact htail y hy

/-- A `some` result of the `closestFloor` loop is either the incoming
accumulator or a qualifying valid hit. -/
lemma closestFloor_foldl_shape (posY : ℚ) (l : List (Option ℚ)) :
    ∀ (acc : Option ℚ) (m : ℚ), l.foldl (closestFloorStep posY) acc = some m →
      acc = some m ∨ (m ∈ l.filterMap id ∧ m ≤ posY + 0.5) := by
  induction l with
  | nil =>
    intro acc m h
    exact Or.inl h
  | cons hd t ih =>
    intro acc m h
    rw [List.foldl_cons] at h
    rcases ih (closestFloorStep posY acc hd) m h with hs | ⟨hmem, hQ⟩
    · match hd with
      | none => exact Or.inl hs
      | some y =>
        match acc with
        | none =>
          simp only [closestFloorStep] at hs
          by_cases hQy : y ≤ posY + 0.5
          · rw [if_pos hQy] at hs
            obtain rfl : y = m := by injection hs
            exact Or.inr ⟨by simp [List.filterMap_cons], hQy⟩
          · rw [if_neg hQy] at hs
            exact absurd hs (by simp)
        | some c =>
          simp only [closestFloorStep] at hs
          by_cases hc : y ≤ posY + 0.5 ∧ c < y
          · rw [if_pos hc] at hs
            obtain rfl : y = m := by injection hs
            exact Or.inr ⟨by simp [List.filterMap_cons], hc.1⟩
          · rw [if_neg hc] at hs
            exact Or.inl hs
    · refine Or.inr ⟨?_, hQ⟩
      match hd with
      | none => simpa [List.filterMap_cons] using hmem
      | some y => simp [List.filterMap_cons, hmem]

/-- The result of the `closestFloor` loop dominates the incoming
accumulator and every qualifying valid hit. -/
lemma closestFloor_foldl_ub (posY : ℚ) (l : List (Option ℚ)) :
    ∀ (acc : Option ℚ) (m : ℚ), l.foldl (closestFloorStep posY) acc = some m →
      (∀ c, acc = some c → c ≤ m)
      ∧ (∀ y ∈ l.filterMap id, y ≤ posY + 0.5 → y ≤ m) := by
  induction l with
  | nil =>
    intro acc m h
    refine ⟨?_, by simp⟩
    intro c hc
    rw [hc] at h
    obtain rfl : c = m := by injection h
    exact le_refl _
  | cons hd t ih =>
    intro acc m h
    rw [List.foldl_cons] at h
    obtain ⟨hA, hB⟩ := ih (closestFloorStep posY acc hd) m h
    constructor
    · intro c hc
      subst hc
      obtain ⟨c', hc', hle⟩ := closestFloorStep_some posY c hd
      exact le_trans hle (hA c' hc')
    · intro y hy hQ
      match hd with
      | none =>
        simp only [List.filterMap_cons, id] at hy
        exact hB y hy hQ
      | some z =>
        simp only [List.filterMap_cons, id, List.mem_cons] at hy
        rcases hy with rfl | hy
        · match acc with
          | none =>
            have hstep : closestFloorStep posY none (some y) = some y := by
              simp only [closestFloorStep]
              rw [if_pos hQ]
            exact hA y hstep
          | some c =>
            by_cases hc : y ≤ posY + 0.5 ∧ c < y
            · have hstep : closestFloorStep posY (some c) (some y) = some y := by
                simp only [closestFloorStep]
                rw [if_pos hc]
              exact hA y hstep
            · have hyc : y ≤ c := by
                by_contra hlt
                exact hc ⟨hQ, lt_of_not_le hlt⟩
              have hstep : closestFloorStep posY (some c) (some y) = some c := by
                simp only [closestFloorStep]
                rw [if_neg hc]
              exact le_trans hyc (hA c hstep)
        · exact hB y hy hQ

/-- One `lowestY` step from a `some` accumulator never loses it and
never increases it. -/
lemma lowestStep_some (c : ℚ) (hd : Option ℚ) :
    ∃ c', lowestStep (some c) hd = some c' ∧ c' ≤ c := by
  cases hd with
  | none => exact ⟨c, rfl, le_refl c⟩
  | some y =>
    by_cases h : y < c
    · exact ⟨y, by simp only [lowestStep]; rw [if_pos h], le_of_lt h⟩
    · exact ⟨c, by simp only [lowestStep]; rw [if_neg h], le_refl c⟩

/-- Folding the `lowestY` loop from a `some` accumulator stays `some`
and never increases. -/
lemma lowest_foldl_some_exists (l : List (Option ℚ)) :
    ∀ c : ℚ, ∃ m, l.foldl lowestStep (some c) = some m ∧ m ≤ c := by
  induction l with
  | nil => exact fun c => ⟨c, rfl, le_refl c⟩
  | cons hd t ih =>
    intro c
    obtain ⟨c', hc', hle⟩ := lowestStep_some c hd
    obtain ⟨m, hm, hle'⟩ := ih c'
    exact ⟨m, by rw [List.foldl_cons, hc']; exact hm, le_trans hle' hle⟩

/-- The `lowestY` loop ends at `Infinity` (modelled `none`) exactly when
it started there and the list has no valid hit. -/
lemma lowest_foldl_none (l : List (Option ℚ)) :
    ∀ acc : Option ℚ, l.foldl lowestStep acc = none →
      acc = none ∧ l.filterMap id = [] := by
  induction l with
  | nil =>
    intro acc h
    exact ⟨h, rfl⟩
  | cons hd t ih =>
    intro acc h
    rw [List.foldl_cons] at h
    obtain ⟨hstep, htail⟩ := ih (lowestStep acc hd) h
    match acc with
    | some c =>
      obtain ⟨c', hc', _⟩ := lowestStep_some c hd
      rw [hc'] at hstep
      exact absurd hstep (by simp)
    | none =>
      match hd with
      | none => exact ⟨rfl, by simp [List.filterMap_cons, htail]⟩
      | some y =>
        simp only [lowestStep] at hstep
        exact absurd hstep (by simp)

/-- A `some` result of the `lowestY` loop is either the incoming
accumulator or a valid hit. -/
lemma lowest_foldl_shape (l : List (Option ℚ)) :
    ∀ (acc : Option ℚ) (m : ℚ), l.foldl lowestStep acc = some m →
      acc = some m ∨ m ∈ l.filterMap id := by
  induction l with
  | nil =>
    intro acc m h
    exact Or.inl h
  | cons hd t ih =>
    intro acc m h
    rw [List.foldl_cons] at h
    rcases ih (lowestStep acc hd) m h with hs | hmem
    · match hd with
      | none => exact Or.inl hs
      | some y =>
        match acc with
        | none =>
          simp only [lowestStep] at hs
          obtain rfl : y = m := by injection hs
          exact Or.inr (by simp [List.filterMap_cons])
        | some c =>
          simp only [lowestStep] at hs
          by_cases hc : y < c
          · rw [if_pos hc] at hs
            obtain rfl : y = m := by injection hs
            exact Or.inr (by simp [List.filterMap_cons])
          · rw [if_neg hc] at hs
            exact Or.inl hs
    · match hd with
      | none => exact Or.inr (by simpa [List.filterMap_cons] using hmem)
      | some y => exact Or.inr (by simp [List.filterMap_cons, hmem])

/-- The result of the `lowestY` loop is below the incoming accumulator
and every valid hit. -/
lemma lowest_foldl_lb (l : List (Option ℚ)) :
    ∀ (acc : Option ℚ) (m : ℚ), l.foldl lowestStep acc = some m →
      (∀ c, acc = some c → m ≤ c)
      ∧ (∀ y ∈ l.filterMap id, m ≤ y) := by
  induction l with
  | nil =>
    intro acc m h
    refine ⟨?_, by simp⟩
    intro c hc
    rw [hc] at h
    obtain rfl : c = m := by injection h
    exact le_refl _
  | cons hd t ih =>
    intro acc m h
    rw [List.foldl_cons] at h
    obtain ⟨hA, hB⟩ := ih (lowestStep acc hd) m h
    constructor
    · intro c hc
      subst hc
      obtain ⟨c', hc', hle⟩ := lowestStep_some c hd
      exact le_trans (hA c' hc') hle
    · intro y hy
      match hd with
      | none =>
        simp only [List.filterMap_cons, id] at hy
        exact hB y hy
      | some z =>
        simp only [List.filterMap_cons, id, List.mem_cons] at hy
        rcases hy with rfl | hy
        · match acc with
          | none => exact hA y (by simp only [lowestStep])
          | some c =>
            by_cases hc : y < c
            · exact hA y (by simp only [lowestStep]; rw [if_pos hc])
            · have hcy : c ≤ y := le_of_not_lt hc
              have hmc := hA c (by simp only [lowestStep]; rw [if_neg hc])
              exact le_trans hmc hcy
        · exact hB y hy

/-- Claim C5: on a probe with at least one valid hit, the selected floor
is the highest valid hit at height ≤ `position.y + 0.5`; when no hit
qualifies it is the globally lowest valid hit (so a hit below the actor
always beats a ceiling hit above the tolerance). -/
theorem floor_selection (hits : List (Option ℚ)) (posY lastKnown : ℚ)
    (hvalid : validHits hits ≠ []) :
    (qualifyingHits hits posY ≠ [] →
      (detectFloorHeight hits posY lastKnown).1 ∈ qualifyingHits hits posY
      ∧ ∀ y ∈ qualifyingHits hits posY, y ≤ (detectFloorHeight hits posY lastKnown).1)
    ∧ (qualifyingHits hits posY = [] →
      (detectFloorHeight hits posY lastKnown).1 ∈ validHits hits
      ∧ ∀ y ∈ validHits hits, (detectFloorHeight hits posY lastKnown).1 ≤ y) := by
  have hne : hits ≠ [] := by
    intro h
    exact hvalid (by rw [h]; rfl)
  have hlen : 0 < hits.length := List.length_pos.mpr hne
  cases hc : hits.foldl (closestFloorStep posY) none with
  | some m =>
    have hdet : detectFloorHeight hits posY lastKnown = (m, m) := by
      unfold detectFloorHeight
      rw [if_pos hlen, hc]
    have hshape := closestFloor_foldl_shape posY hits none m hc
    have hm : m ∈ validHits hits ∧ m ≤ posY + 0.5 := by
      rcases hshape with h | h
      · exact absurd h (by simp)
      · exact h
    have hub := (closestFloor_foldl_ub posY hits none m hc).2
    have hmq : m ∈ qualifyingHits hits posY := by
      unfold qualifyingHits
      rw [List.mem_filter]
      exact ⟨hm.1, by simpa using hm.2⟩
    rw [hdet]
    constructor
    · intro _
      refine ⟨hmq, ?_⟩
      intro y hy
      rw [qualifyingHits, List.mem_filter] at hy
      exact hub y hy.1 (by simpa using hy.2)
    · intro hq
      rw [hq] at hmq
      exact absurd hmq (List.not_mem_nil m)
  | none =>
    have hnone := closestFloor_foldl_none posY hits none hc
    have hq : qualifyingHits hits posY = [] := by
      unfold qualifyingHits
      apply List.filter_eq_nil_iff.mpr
      intro a ha
      simpa using hnone.2 a ha
    cases hl : hits.foldl lowestStep none with
    | none =>
      exact absurd (lowest_foldl_none hits none hl).2 hvalid
    | some m =>
      have hdet : detectFloorHeight hits posY lastKnown = (m, m) := by
        unfold detectFloorHeight
        rw [if_pos hlen, hc, hl]
      have hmem : m ∈ validHits hits := by
        rcases lowest_foldl_shape hits none m hl with h | h
        · exact absurd h (by simp)
        · exact h
      have hlb := (lowest_foldl_lb hits none m hl).2
      rw [hdet]
      constructor
      · intro hqne
        exact absurd hq hqne
      · intro _
        exact ⟨hmem, hlb⟩

/-- Claim C5, witness: spec Scenario D — hits at 5.0 (ceiling, above
`0.8 + 0.5`) and 0.0 (floor below): the nearest-from-below rule selects
0.0. -/
theorem floor_selection_witness :
    validHits [some 5, some 0] ≠ []
    ∧ ((qualifyingHits [some 5, some 0] (0.8 : ℚ) ≠ [] →
        (detectFloorHeight [some 5, some 0] 0.8 0).1 ∈ qualifyingHits [some 5, some 0] (0.8 : ℚ)
        ∧ ∀ y ∈ qualifyingHits [some 5, some 0] (0.8 : ℚ),
            y ≤ (detectFloorHeight [some 5, some 0] 0.8 0).1)
      ∧ (qualifyingHits [some 5, some 0] (0.8 : ℚ) = [] →
        (detectFloorHeight [some 5, some 0] 0.8 0).1 ∈ validHits [some 5, some 0]
        ∧ ∀ y ∈ validHits [some 5, some 0],
            (detectFloorHeight [some 5, some 0] 0.8 0).1 ≤ y))
    ∧ (detectFloorHeight [some 5, some 0] 0.8 0).1 = 0 := by
  refine ⟨by simp [validHits], floor_selection [some 5, some 0] 0.8 0 (by simp [validHits]), ?_⟩
  norm_num [detectFloorHeight, closestFloorStep, lowestStep, List.foldl]

/-- Claim C6: a probe with no valid hit leaves both the returned floor
height and the persisted `lastKnownFloorHeight` exactly at their
previous value — the floor sample is only overwritten on a valid hit. -/
theorem floor_continuity (hits : List (Option ℚ)) (posY lastKnown : ℚ)
    (hvalid : validHits hits = []) :
    detectFloorHeight hits posY lastKnown = (lastKnown, lastKnown) := by
  have hfm : hits.filterMap id = [] := hvalid
  unfold detectFloorHeight
  by_cases hlen : 0 < hits.length
  · rw [if_pos hlen]
    cases hc : hits.foldl (closestFloorStep posY) none with
    | some m =>
      rcases closestFloor_foldl_shape posY hits none m hc with h | h
      · exact absurd h (by simp)
      · rw [hfm] at h
        exact absurd h.1 (List.not_mem_nil m)
    | none =>
      cases hl : hits.foldl lowestStep none with
      | some m =>
        rcases lowest_foldl_shape hits none m hl with h | h
        · exact absurd h (by simp)
        · rw [hfm] at h
          exact absurd h (List.not_mem_nil m)
      | none => rfl
  · rw [if_neg hlen]

/-- Claim C6, witness: a frame whose probe returns a single invalid
entry holds the previous floor height 7 unchanged. -/
theorem floor_continuity_witness :
    validHits [none] = []
    ∧ detectFloorHeight [none] (0.8 : ℚ) 7 = (7, 7) :=
  ⟨rfl, floor_continuity [none] 0.8 7 rfl⟩

end ControlsManager

end TheBean
